import Mathlib

/-!
Verification of the Route dispatch pipeline of the Gophress repository
(`src/lib/router/route.js`): the `Route` data model, the registration
operations `all` / `get`, and the continuation-passing dispatcher
`Route.prototype.dispatch` with its inner `next` closure, shallowly
embedded as pure Lean functions over an abstract error payload type `ε`.
-/

namespace Gophress

/-- A JavaScript value passed to the continuation `next(err)`.  The
dispatcher in `route.js` distinguishes exactly four classes of argument,
through the guards `err && err === 'route'`, `err && err === 'router'`
and `if (err)`: falsy values (`next()`, `next(null)`, … — modelled as
`normal`), the sentinel string `'route'`, the sentinel string `'router'`,
and any other truthy value, treated as a pending error (payload `ε`). -/
inductive Signal (ε : Type) where
  | normal
  | route
  | router
  | err (e : ε)
deriving DecidableEq

/-- Modelled from the spec: the Layer collaborator (module `./layer`,
whose source file is not part of the snapshot) wraps one handler
function; `errorCapable` is its classification, fixed at construction
(normal vs. error-capable, derived from the handler's arity).  Each entry
point (`handle_request` for normal mode, `handle_error` for error mode)
is modelled by the signal the invoked handler eventually passes to the
continuation `next`, or `none` when the handler never calls its
continuation at all (for instance because it terminates the response
instead of advancing). -/
structure Layer (ε : Type) where
  errorCapable : Bool
  handle_request : Option (Signal ε)
  handle_error : ε → Option (Signal ε)

/-- `Route(path)` from `route.js`: `this.path = path; this.stack = []`,
with `stack` holding the registered layers in order. -/
structure Route (ε : Type) where
  path : String
  stack : List (Layer ε)

/-- What the callback `done` finally receives: nothing at all (`done()`,
from the `'route'` sentinel or an empty stack), a falsy `err`
(`done(err)` at stack exhaustion with no pending error), the sentinel
`'router'` (`done(err)` with `err === 'router'`), or a pending error
value (`done(err)` at stack exhaustion with a truthy error). -/
inductive DoneArg (ε : Type) where
  | noArgs
  | falsy
  | router
  | err (e : ε)
deriving DecidableEq

/-- Observable dispatch events, in execution order: the assignment
`req.route = this`, and each layer invocation — `handle_request` of the
layer at stack index `i`, or `handle_error` at index `i` with the
pending error value. -/
inductive Event (ε : Type) where
  | setRoute
  | invokeRequest (i : Nat)
  | invokeError (i : Nat) (e : ε)
deriving DecidableEq

/-- The inner closure `next(err)` of `Route.prototype.dispatch`, run to
completion.  Arguments: the layers not yet visited (`stack[idx…]`), the
current cursor value `idx` (`var layer = stack[idx++]`) and the argument
`err` of this call of `next`.  Returns the ordered list of layer
invocations performed, and `some d` when `done` is eventually called
with `d` — or `none` when an invoked layer never calls its continuation,
so that neither `next` nor `done` is ever reached again. -/
def runStack {ε : Type} : List (Layer ε) → Nat → Signal ε → List (Event ε) × Option (DoneArg ε)
  | _, _, .route => ([], some .noArgs)
  | _, _, .router => ([], some .router)
  | [], _, .normal => ([], some .falsy)
  | [], _, .err e => ([], some (.err e))
  | l :: rest, idx, .normal =>
    match l.handle_request with
    | none => ([Event.invokeRequest idx], none)
    | some s =>
      let p := runStack rest (idx + 1) s
      (Event.invokeRequest idx :: p.1, p.2)
  | l :: rest, idx, .err e =>
    match l.handle_error e with
    | none => ([Event.invokeError idx e], none)
    | some s =>
      let p := runStack rest (idx + 1) s
      (Event.invokeError idx e :: p.1, p.2)

/-- A request: an opaque payload (never touched by this core) and the
`route` field that `dispatch` assigns (`req.route = this`). -/
structure Request (ρ ε : Type) where
  payload : ρ
  route : Option (Route ε)

/-- Everything observable about one `dispatch(req, res, done)` call: the
route afterwards (`dispatch` contains no assignment to `this`), the
request and the response afterwards, the ordered event trace, and the
argument `done` received — `none` when `done` is never invoked. -/
structure DispatchOut (ρ σ ε : Type) where
  route : Route ε
  req : Request ρ ε
  res : σ
  trace : List (Event ε)
  done : Option (DoneArg ε)

/-- `Route.prototype.dispatch`: with an empty stack, `return done()` at
once — before the `req.route = this` assignment, so the request is left
untouched; otherwise assign `req.route = this` and call `next()` (a
falsy first signal) with the cursor at 0. -/
def Route.dispatch {ρ σ ε : Type} (r : Route ε) (req : Request ρ ε) (res : σ) :
    DispatchOut ρ σ ε :=
  if r.stack.isEmpty then
    ⟨r, req, res, [], some .noArgs⟩
  else
    ⟨r, { req with route := some r }, res,
      Event.setRoute :: (runStack r.stack 0 .normal).1,
      (runStack r.stack 0 .normal).2⟩

/-- A JavaScript value in the collected argument list of a registration
call: a function (carrying the behaviour of the layer that
`Layer('/', \x7b\x7d, handle)` wraps it into), a non-function value carrying
its `Object.prototype.toString` tag, or a nested array (removed by
`flatten`). -/
inductive HVal (ε : Type) where
  | fn (l : Layer ε)
  | nonFn (tag : String)
  | arr (elems : List (HVal ε))

/-- `Object.prototype.toString.call(v)` for the value classes above. -/
def jsTag {ε : Type} : HVal ε → String
  | .fn _ => "[object Function]"
  | .nonFn t => t
  | .arr _ => "[object Array]"

/-- `typeof v === 'function'`. -/
def isFn {ε : Type} : HVal ε → Bool
  | .fn _ => true
  | _ => false

/-- `flatten(slice.call(arguments))` from the array-flatten dependency:
depth-unbounded flattening of nested arrays. -/
def flattenH {ε : Type} : List (HVal ε) → List (HVal ε)
  | [] => []
  | .arr es :: rest => flattenH es ++ flattenH rest
  | v :: rest => v :: flattenH rest

/-- What a registration call throws: `Route.all` throws a `TypeError`,
`Route.get` throws a plain `Error`, each with its message. -/
inductive Thrown where
  | typeError (msg : String)
  | plainError (msg : String)
deriving DecidableEq

/-- The shared `for` loop of `Route.prototype.all` / `Route.prototype.get`:
walk the flattened handler list, pushing one layer per function value
(`this.stack.push(layer)`); at the first non-function, throw — `mk`
builds the exception and `msg` is the method's message text.  Layers
pushed before the throw stay in the stack. -/
def registerGo {ε : Type} (mk : String → Thrown) (msg : String) :
    List (Layer ε) → List (HVal ε) → List (Layer ε) × Option Thrown
  | stack, [] => (stack, none)
  | stack, .fn l :: rest => registerGo mk msg (stack ++ [l]) rest
  | stack, v :: _ => (stack, some (mk (msg ++ jsTag v)))

/-- `Route.prototype.all`: flatten the arguments, run the validation and
push loop (throwing a `TypeError` at a non-function), `return this`. -/
def Route.all {ε : Type} (r : Route ε) (args : List (HVal ε)) :
    Route ε × Option Thrown :=
  let p := registerGo Thrown.typeError
    "Route.all() requires a callback function but got a " r.stack (flattenH args)
  ({ r with stack := p.1 }, p.2)

/-- `Route.prototype.get`: identical loop, but it throws a plain `Error`
with its own message, and emits a debug log line per handler (no
observable effect modelled). -/
def Route.get {ε : Type} (r : Route ε) (args : List (HVal ε)) :
    Route ε × Option Thrown :=
  let p := registerGo Thrown.plainError
    "Route.get() requires a callback function but got a " r.stack (flattenH args)
  ({ r with stack := p.1 }, p.2)

/-- Index of the first error-capable layer of a stack segment, if any. -/
def firstEC {ε : Type} : List (Layer ε) → Option Nat
  | [] => none
  | l :: rest => if l.errorCapable then some 0 else (firstEC rest).map (· + 1)

/-- The first non-function value of a flattened list, if any. -/
def firstNonFn {ε : Type} : List (HVal ε) → Option (HVal ε)
  | .fn _ :: rest => firstNonFn rest
  | v :: _ => some v
  | [] => none

/-- The layers wrapped from the function values preceding the first
non-function of a flattened list — exactly what the registration loop
pushes before returning or throwing. -/
def layersOf {ε : Type} : List (HVal ε) → List (Layer ε)
  | .fn l :: rest => l :: layersOf rest
  | _ => []

/-- A call of `next('route')` invokes no layer and ends with `done()`,
whatever the cursor and the remaining stack. -/
lemma runStack_route {ε : Type} (s : List (Layer ε)) (idx : Nat) :
    runStack s idx Signal.route = ([], some DoneArg.noArgs) := by
  cases s <;> rfl

/-- A call of `next('router')` invokes no layer and ends with
`done('router')`, whatever the cursor and the remaining stack. -/
lemma runStack_router {ε : Type} (s : List (Layer ε)) (idx : Nat) :
    runStack s idx Signal.router = ([], some DoneArg.router) := by
  cases s <;> rfl

/-- Running a segment whose layers all advance normally produces one
normal-mode invocation per layer, in order, and then continues with the
rest of the stack. -/
lemma runStack_normal_prefix {ε : Type} (s1 s2 : List (Layer ε)) (idx : Nat)
    (h : ∀ l ∈ s1, l.handle_request = some Signal.normal) :
    runStack (s1 ++ s2) idx Signal.normal =
      ((List.range' idx s1.length).map Event.invokeRequest
          ++ (runStack s2 (idx + s1.length) Signal.normal).1,
        (runStack s2 (idx + s1.length) Signal.normal).2) := by
  induction s1 generalizing idx with
  | nil => simp
  | cons l t ih =>
    have hl : l.handle_request = some Signal.normal := h l (List.mem_cons_self _ _)
    have ht : ∀ x ∈ t, x.handle_request = some Signal.normal :=
      fun x hx => h x (List.mem_cons_of_mem _ hx)
    have harith : idx + (t.length + 1) = (idx + 1) + t.length := by omega
    simp only [List.cons_append, runStack, hl, List.append_eq, ih (idx + 1) ht,
      List.length_cons, List.range'_succ, List.map_cons, harith]

/-- Special case: a stack whose layers all advance normally is exhausted
after one normal-mode invocation per layer, and `done` receives the
falsy `err` carried by the last `next()` call. -/
lemma runStack_all_normal {ε : Type} (s : List (Layer ε)) (idx : Nat)
    (h : ∀ l ∈ s, l.handle_request = some Signal.normal) :
    runStack s idx Signal.normal =
      ((List.range' idx s.length).map Event.invokeRequest, some DoneArg.falsy) := by
  have hx := runStack_normal_prefix s [] idx h
  have h0 : runStack ([] : List (Layer ε)) (idx + s.length) Signal.normal
      = ([], some DoneArg.falsy) := rfl
  rw [h0] at hx
  simpa using hx

/-- Reaching layer `i`: when the first `i` layers all advance normally,
the dispatch trace is the `setRoute` assignment, one normal-mode
invocation per layer below `i`, and whatever running the stack from
layer `i` produces. -/
lemma dispatch_reach_layer {ρ σ ε : Type} (r : Route ε) (req : Request ρ ε) (res : σ)
    (i : Nat) (hi : i < r.stack.length)
    (hpre : ∀ l ∈ r.stack.take i, l.handle_request = some Signal.normal) :
    (r.dispatch req res).trace =
      Event.setRoute :: ((List.range' 0 i).map Event.invokeRequest
        ++ (runStack (r.stack.get ⟨i, hi⟩ :: r.stack.drop (i + 1)) i Signal.normal).1) ∧
    (r.dispatch req res).done =
      (runStack (r.stack.get ⟨i, hi⟩ :: r.stack.drop (i + 1)) i Signal.normal).2 := by
  have hne : r.stack.isEmpty = false := by
    simp only [List.isEmpty_eq_false]
    intro hnil
    rw [hnil] at hi
    exact absurd hi (by simp)
  have hsplit : r.stack = r.stack.take i ++ (r.stack.get ⟨i, hi⟩ :: r.stack.drop (i + 1)) := by
    conv_lhs => rw [← List.take_append_drop i r.stack]
    rw [List.drop_eq_get_cons hi]
  have hlen : (r.stack.take i).length = i := by
    simp [List.length_take, Nat.min_eq_left (Nat.le_of_lt hi)]
  have hrun := runStack_normal_prefix (r.stack.take i)
    (r.stack.get ⟨i, hi⟩ :: r.stack.drop (i + 1)) 0 hpre
  rw [hlen] at hrun
  simp only [Nat.zero_add] at hrun
  constructor
  · show (r.dispatch req res).trace = _
    simp only [Route.dispatch, hne, Bool.false_eq_true, if_false]
    conv_lhs => rw [hsplit]
    rw [hrun]
  · show (r.dispatch req res).done = _
    simp only [Route.dispatch, hne, Bool.false_eq_true, if_false]
    conv_lhs => rw [hsplit]
    rw [hrun]

/-- Error skipping: while every non-error-capable layer of the segment
forwards the pending error unchanged, the error walks forward; if the
segment holds no error-capable layer, every layer is invoked in error
mode and `done` receives the error itself; otherwise the trace runs up
to and includes the error-mode invocation, with that same error, of the
first error-capable layer. -/
lemma runStack_error_skip {ε : Type} (e : ε) (s : List (Layer ε)) (idx : Nat)
    (h : ∀ l ∈ s, l.errorCapable = false → l.handle_error e = some (Signal.err e)) :
    (firstEC s = none →
      runStack s idx (Signal.err e) =
        ((List.range' idx s.length).map (fun k => Event.invokeError k e),
          some (DoneArg.err e))) ∧
    (∀ j, firstEC s = some j →
      ∃ t, (runStack s idx (Signal.err e)).1 =
        ((List.range' idx j).map (fun k => Event.invokeError k e))
          ++ Event.invokeError (idx + j) e :: t) := by
  induction s generalizing idx with
  | nil =>
    refine ⟨fun _ => rfl, fun j hj => ?_⟩
    simp [firstEC] at hj
  | cons l t ih =>
    have ht : ∀ x ∈ t, x.errorCapable = false → x.handle_error e = some (Signal.err e) :=
      fun x hx => h x (List.mem_cons_of_mem _ hx)
    by_cases hEC : l.errorCapable
    · refine ⟨fun hnone => ?_, fun j hj => ?_⟩
      · simp [firstEC, hEC] at hnone
      · have hj0 : j = 0 := by
          simp [firstEC, hEC] at hj
          omega
        subst hj0
        cases hle : l.handle_error e with
        | none =>
          refine ⟨[], ?_⟩
          simp [runStack, hle]
        | some s' =>
          refine ⟨(runStack t (idx + 1) s').1, ?_⟩
          simp [runStack, hle]
    · have hle : l.handle_error e = some (Signal.err e) :=
        h l (List.mem_cons_self _ _) (by simpa using hEC)
      have ihx := ih (idx + 1) ht
      refine ⟨fun hnone => ?_, fun j hj => ?_⟩
      · have htn : firstEC t = none := by
          cases hft : firstEC t with
          | none => rfl
          | some j' =>
            rw [show firstEC (l :: t) = (firstEC t).map (· + 1) by
              simp [firstEC, hEC], hft] at hnone
            simp at hnone
        have hrec := ihx.1 htn
        simp only [runStack, hle, hrec, List.length_cons, List.range'_succ,
          List.map_cons]
      · rw [show firstEC (l :: t) = (firstEC t).map (· + 1) by
          simp [firstEC, hEC]] at hj
        cases hft : firstEC t with
        | none => rw [hft] at hj; simp at hj
        | some j' =>
          rw [hft] at hj
          have hj2 : j' + 1 = j := by simpa using hj
          subst hj2
          obtain ⟨t', ht'⟩ := ihx.2 j' hft
          refine ⟨t', ?_⟩
          have harith : idx + (j' + 1) = (idx + 1) + j' := by omega
          simp only [runStack, hle, ht', List.range'_succ, List.map_cons,
            List.cons_append, harith]

/-- When every layer of the segment always calls its continuation, the
run always reaches a `done` call. -/
lemma runStack_done_isSome {ε : Type} (s : List (Layer ε)) :
    ∀ (idx : Nat) (sig : Signal ε),
      (∀ l ∈ s, l.handle_request ≠ none ∧ ∀ e, l.handle_error e ≠ none) →
      (runStack s idx sig).2.isSome := by
  induction s with
  | nil =>
    intro idx sig _
    cases sig <;> rfl
  | cons l t ih =>
    intro idx sig h
    have hl := h l (List.mem_cons_self _ _)
    have ht : ∀ x ∈ t, x.handle_request ≠ none ∧ ∀ e, x.handle_error e ≠ none :=
      fun x hx => h x (List.mem_cons_of_mem _ hx)
    cases sig with
    | route => rfl
    | router => rfl
    | normal =>
      cases hr : l.handle_request with
      | none => exact absurd hr hl.1
      | some s' =>
        simp only [runStack, hr]
        exact ih (idx + 1) s' ht
    | err e =>
      cases hr : l.handle_error e with
      | none => exact absurd hr (hl.2 e)
      | some s' =>
        simp only [runStack, hr]
        exact ih (idx + 1) s' ht

/-- The registration loop always leaves the stack equal to the incoming
stack followed by the layers wrapped from the function values preceding
the first non-function. -/
lemma registerGo_stack {ε : Type} (mk : String → Thrown) (msg : String) :
    ∀ (hs : List (HVal ε)) (acc : List (Layer ε)),
      (registerGo mk msg acc hs).1 = acc ++ layersOf hs := by
  intro hs
  induction hs with
  | nil => intro acc; simp [registerGo, layersOf]
  | cons v rest ih =>
    intro acc
    cases v with
    | fn l => simp [registerGo, layersOf, ih]
    | nonFn tag => simp [registerGo, layersOf]
    | arr es => simp [registerGo, layersOf]

/-- The registration loop throws exactly at the first non-function of
the list, with a message naming that value's type. -/
lemma registerGo_throw {ε : Type} (mk : String → Thrown) (msg : String) :
    ∀ (hs : List (HVal ε)) (acc : List (Layer ε)) (v : HVal ε),
      firstNonFn hs = some v →
      (registerGo mk msg acc hs).2 = some (mk (msg ++ jsTag v)) := by
  intro hs
  induction hs with
  | nil => intro acc v hv; simp [firstNonFn] at hv
  | cons w rest ih =>
    intro acc v hv
    cases w with
    | fn l =>
      simp only [firstNonFn] at hv
      simpa [registerGo] using ih (acc ++ [l]) v hv
    | nonFn tag =>
      simp only [firstNonFn, Option.some_inj] at hv
      subst hv
      rfl
    | arr es =>
      simp only [firstNonFn, Option.some_inj] at hv
      subst hv
      rfl

/-! Concrete fixtures used by witnesses and counterexamples (error
payloads are strings, request payloads and responses are numbers). -/

/-- A plain normal handler: advances with `next()`; in error mode it
forwards the error unchanged, as the Layer contract requires of a
non-error-capable layer. -/
def layerN : Layer String := ⟨false, some Signal.normal, fun e => some (Signal.err e)⟩

/-- A handler that short-circuits its route with `next('route')`. -/
def layerRoute : Layer String := ⟨false, some Signal.route, fun e => some (Signal.err e)⟩

/-- A handler that defers to the owning router with `next('router')`. -/
def layerRouter : Layer String := ⟨false, some Signal.router, fun e => some (Signal.err e)⟩

/-- A handler that raises the error `"boom"` via `next('boom')`. -/
def layerRaise : Layer String := ⟨false, some (Signal.err "boom"), fun e => some (Signal.err e)⟩

/-- An error-capable handler that clears the error with `next()`. -/
def layerEC : Layer String := ⟨true, some Signal.normal, fun _ => some Signal.normal⟩

/-- A handler that never calls its continuation (it ends the response
instead of advancing, as in the spec's Scenario A). -/
def layerStall : Layer String := ⟨false, none, fun _ => none⟩

/-- A concrete request with no route attached yet. -/
def req0 : Request Nat String := ⟨37, none⟩

/-- Claim C7: on a route whose stack is empty, `dispatch` invokes `done`
with zero arguments, invokes no layer, and leaves the request and the
response untouched. -/
theorem dispatch_empty_stack {ρ σ ε : Type} (r : Route ε) (req : Request ρ ε) (res : σ)
    (h : r.stack = []) :
    (r.dispatch req res).done = some DoneArg.noArgs ∧
    (r.dispatch req res).trace = [] ∧
    (r.dispatch req res).req = req ∧ (r.dispatch req res).res = res := by
  simp [Route.dispatch, h]

/-- Witness for C7 at a concrete empty route. -/
theorem dispatch_empty_stack_witness :
    ((Route.mk "/" ([] : List (Layer String))).dispatch req0 (0 : Nat)).done
        = some DoneArg.noArgs ∧
    ((Route.mk "/" ([] : List (Layer String))).dispatch req0 (0 : Nat)).trace = [] ∧
    ((Route.mk "/" ([] : List (Layer String))).dispatch req0 (0 : Nat)).req = req0 ∧
    ((Route.mk "/" ([] : List (Layer String))).dispatch req0 (0 : Nat)).res = 0 :=
  dispatch_empty_stack (Route.mk "/" []) req0 0 rfl

/-- Claim C1: on a route with a non-empty stack whose layers all call
their continuation exactly once with no argument, `dispatch` invokes
each layer's `handle_request` exactly once, in registration order, and
after the last layer advances, `done` is called with no error (the falsy
`err` of the final `next()`). -/
theorem dispatch_all_normal_in_order {ρ σ ε : Type} (r : Route ε)
    (req : Request ρ ε) (res : σ) (hne : r.stack ≠ [])
    (h : ∀ l ∈ r.stack, l.handle_request = some Signal.normal) :
    (r.dispatch req res).trace =
      Event.setRoute :: (List.range r.stack.length).map Event.invokeRequest ∧
    (r.dispatch req res).done = some DoneArg.falsy := by
  have hE : r.stack.isEmpty = false := by simpa using hne
  have hrun := runStack_all_normal r.stack 0 h
  constructor
  · show (r.dispatch req res).trace = _
    simp only [Route.dispatch, hE, Bool.false_eq_true, if_false]
    rw [hrun, List.range_eq_range']
  · show (r.dispatch req res).done = _
    simp only [Route.dispatch, hE, Bool.false_eq_true, if_false]
    rw [hrun]

/-- Witness for C1 on a concrete two-layer route. -/
theorem dispatch_all_normal_in_order_witness :
    ((Route.mk "/" [layerN, layerN]).dispatch req0 (0 : Nat)).trace =
      Event.setRoute ::
        (List.range (Route.mk "/" [layerN, layerN]).stack.length).map Event.invokeRequest ∧
    ((Route.mk "/" [layerN, layerN]).dispatch req0 (0 : Nat)).done = some DoneArg.falsy :=
  dispatch_all_normal_in_order (Route.mk "/" [layerN, layerN]) req0 0 (by simp)
    (by intro l hl; fin_cases hl <;> rfl)

/-- Claim C3: when the layers below position `i` all advance normally
and the layer at `i` calls its continuation with `'route'`, the layers
at positions above `i` are never invoked and `done` is called with no
arguments. -/
theorem dispatch_route_sentinel_stops {ρ σ ε : Type} (r : Route ε)
    (req : Request ρ ε) (res : σ) (i : Nat) (hi : i < r.stack.length)
    (hpre : ∀ l ∈ r.stack.take i, l.handle_request = some Signal.normal)
    (hroute : (r.stack.get ⟨i, hi⟩).handle_request = some Signal.route) :
    (r.dispatch req res).trace =
      Event.setRoute :: (List.range (i + 1)).map Event.invokeRequest ∧
    (r.dispatch req res).done = some DoneArg.noArgs ∧
    ∀ k, i < k → Event.invokeRequest k ∉ (r.dispatch req res).trace ∧
      ∀ e, Event.invokeError k e ∉ (r.dispatch req res).trace := by
  obtain ⟨htr, hdn⟩ := dispatch_reach_layer r req res i hi hpre
  have hcons : runStack (r.stack.get ⟨i, hi⟩ :: r.stack.drop (i + 1)) i Signal.normal
      = ([Event.invokeRequest i], some DoneArg.noArgs) := by
    simp only [runStack, hroute, runStack_route]
  rw [hcons] at htr hdn
  have htr' : (r.dispatch req res).trace =
      Event.setRoute :: (List.range (i + 1)).map Event.invokeRequest := by
    rw [htr, List.range_eq_range', List.range'_1_concat, List.map_append]
    simp
  refine ⟨htr', hdn, ?_⟩
  intro k hk
  rw [htr']
  constructor
  · simp only [List.mem_cons, List.mem_map, List.mem_range]
    rintro (h1 | ⟨a, ha, h2⟩)
    · exact Event.noConfusion h1
    · have : a = k := by
        injection h2
      omega
  · intro e
    simp only [List.mem_cons, List.mem_map, List.mem_range]
    rintro (h1 | ⟨a, ha, h2⟩)
    · exact Event.noConfusion h1
    · exact Event.noConfusion h2

/-- Witness for C3: the first layer of a two-layer route raises
`'route'`; the second layer (which would stall) is never invoked. -/
theorem dispatch_route_sentinel_stops_witness :
    ((Route.mk "/" [layerRoute, layerStall]).dispatch req0 (0 : Nat)).trace =
      Event.setRoute :: (List.range 1).map Event.invokeRequest ∧
    ((Route.mk "/" [layerRoute, layerStall]).dispatch req0 (0 : Nat)).done
      = some DoneArg.noArgs :=
  ⟨(dispatch_route_sentinel_stops (Route.mk "/" [layerRoute, layerStall]) req0 0 0
      (by decide) (by simp) rfl).1,
    (dispatch_route_sentinel_stops (Route.mk "/" [layerRoute, layerStall]) req0 0 0
      (by decide) (by simp) rfl).2.1⟩

/-- Claim C4: once the continuation is called with `'router'`, no
further layer executes and `done` receives exactly `'router'` — stated
both for the continuation itself (`runStack`, any cursor and remaining
stack) and for a whole dispatch in which the layer at position `i` is
reached normally and raises `'router'`. -/
theorem dispatch_router_sentinel_defers {ρ σ ε : Type} (r : Route ε)
    (req : Request ρ ε) (res : σ) (i : Nat) (hi : i < r.stack.length)
    (hpre : ∀ l ∈ r.stack.take i, l.handle_request = some Signal.normal)
    (hrouter : (r.stack.get ⟨i, hi⟩).handle_request = some Signal.router) :
    (∀ (s : List (Layer ε)) (idx : Nat),
      runStack s idx Signal.router = ([], some DoneArg.router)) ∧
    (r.dispatch req res).trace =
      Event.setRoute :: (List.range (i + 1)).map Event.invokeRequest ∧
    (r.dispatch req res).done = some DoneArg.router := by
  obtain ⟨htr, hdn⟩ := dispatch_reach_layer r req res i hi hpre
  have hcons : runStack (r.stack.get ⟨i, hi⟩ :: r.stack.drop (i + 1)) i Signal.normal
      = ([Event.invokeRequest i], some DoneArg.router) := by
    simp only [runStack, hrouter, runStack_router]
  rw [hcons] at htr hdn
  refine ⟨runStack_router, ?_, hdn⟩
  rw [htr, List.range_eq_range', List.range'_1_concat, List.map_append]
  simp

/-- Witness for C4: the first layer of a two-layer route raises
`'router'`; the stalling second layer is never invoked and `done`
receives `'router'`. -/
theorem dispatch_router_sentinel_defers_witness :
    ((Route.mk "/" [layerRouter, layerStall]).dispatch req0 (0 : Nat)).trace =
      Event.setRoute :: (List.range 1).map Event.invokeRequest ∧
    ((Route.mk "/" [layerRouter, layerStall]).dispatch req0 (0 : Nat)).done
      = some DoneArg.router :=
  ⟨(dispatch_router_sentinel_defers (Route.mk "/" [layerRouter, layerStall]) req0 0 0
      (by decide) (by simp) rfl).2.1,
    (dispatch_router_sentinel_defers (Route.mk "/" [layerRouter, layerStall]) req0 0 0
      (by decide) (by simp) rfl).2.2⟩

/-- Claim C5: if the layer at position `i`, reached normally, calls its
continuation with an error value `e` (neither sentinel), and every
non-error-capable layer after it forwards the error unchanged (the
Layer contract), then: with no error-capable layer remaining, `done` is
called with that exact error value; otherwise the first error-capable
layer after `i` is invoked in error mode with that exact error value. -/
theorem dispatch_error_to_first_error_capable {ρ σ ε : Type} (r : Route ε)
    (req : Request ρ ε) (res : σ) (i : Nat) (e : ε) (hi : i < r.stack.length)
    (hpre : ∀ l ∈ r.stack.take i, l.handle_request = some Signal.normal)
    (herr : (r.stack.get ⟨i, hi⟩).handle_request = some (Signal.err e))
    (hskip : ∀ l ∈ r.stack.drop (i + 1),
      l.errorCapable = false → l.handle_error e = some (Signal.err e)) :
    (firstEC (r.stack.drop (i + 1)) = none →
      (r.dispatch req res).done = some (DoneArg.err e)) ∧
    (∀ j, firstEC (r.stack.drop (i + 1)) = some j →
      Event.invokeError (i + 1 + j) e ∈ (r.dispatch req res).trace) := by
  obtain ⟨htr, hdn⟩ := dispatch_reach_layer r req res i hi hpre
  have hskipx := runStack_error_skip e (r.stack.drop (i + 1)) (i + 1) hskip
  constructor
  · intro hnone
    have hrec := hskipx.1 hnone
    rw [hdn]
    simp only [runStack, herr, hrec]
  · intro j hj
    obtain ⟨t, hts⟩ := hskipx.2 j hj
    rw [htr]
    have hmem : Event.invokeError (i + 1 + j) e
        ∈ (runStack (r.stack.drop (i + 1)) (i + 1) (Signal.err e)).1 := by
      rw [hts]
      exact List.mem_append_right _ (List.mem_cons_self _ _)
    have htail : (runStack (r.stack.get ⟨i, hi⟩ :: r.stack.drop (i + 1)) i Signal.normal).1
        = Event.invokeRequest i
            :: (runStack (r.stack.drop (i + 1)) (i + 1) (Signal.err e)).1 := by
      simp only [runStack, herr]
    rw [htail]
    exact List.mem_cons_of_mem _ (List.mem_append_right _ (List.mem_cons_of_mem _ hmem))

/-- Witness for C5 on the spec's Scenario B shape: the first layer
raises `"boom"`, the second is the (first) error-capable layer and is
invoked in error mode with that error. -/
theorem dispatch_error_to_first_error_capable_witness :
    Event.invokeError 1 "boom"
      ∈ ((Route.mk "/" [layerRaise, layerEC]).dispatch req0 (0 : Nat)).trace :=
  (dispatch_error_to_first_error_capable (Route.mk "/" [layerRaise, layerEC]) req0 0 0
      "boom" (by decide) (by simp) rfl
      (by intro l hl; fin_cases hl; simp [layerEC])).2 0 rfl

/-- Claim C6 (amended): `done` is invoked at most once per dispatch, and
it is invoked — exactly once, with one of the `DoneArg` outcomes: no
error (`done()` / a falsy `err`), the sentinel `'router'`, or an error
value — provided every layer of the stack always calls its continuation.
A layer that never calls its continuation (the spec's own Scenario A)
leaves `done` uninvoked, refuting the unconditional claim. -/
theorem dispatch_done_once {ρ σ ε : Type} (r : Route ε) (req : Request ρ ε) (res : σ)
    (h : ∀ l ∈ r.stack, l.handle_request ≠ none ∧ ∀ e, l.handle_error e ≠ none) :
    (r.dispatch req res).done.isSome = true := by
  by_cases hE : r.stack.isEmpty
  · simp [Route.dispatch, hE]
  · have hE' : r.stack.isEmpty = false := by simpa using hE
    simp only [Route.dispatch, hE', Bool.false_eq_true, if_false]
    exact runStack_done_isSome r.stack 0 Signal.normal h

/-- Witness for the amended C6 on a concrete stall-free route. -/
theorem dispatch_done_once_witness :
    ((Route.mk "/" [layerN]).dispatch req0 (0 : Nat)).done.isSome = true :=
  dispatch_done_once (Route.mk "/" [layerN]) req0 0
    (by intro l hl; fin_cases hl; exact ⟨by simp [layerN], fun e => by simp [layerN]⟩)

/-- Counterexample to C6 as stated: a single layer that never calls its
continuation (it terminates the response instead, as in the spec's
Scenario A) leaves `done` uninvoked — `done` is not invoked exactly once
on every dispatch. -/
theorem dispatch_done_not_called_cex :
    ((Route.mk "/" [layerStall]).dispatch req0 (0 : Nat)).done = none := rfl

/-- Claim C8: registration only ever appends — after any `all` or `get`
call the stack is the previous stack followed by some new layers, every
previously inserted layer keeping its position — and `dispatch` leaves
the route (hence its stack) unmodified. -/
theorem stack_append_only {ρ σ ε : Type} (r : Route ε) (args : List (HVal ε))
    (req : Request ρ ε) (res : σ) :
    (∃ t, (r.all args).1.stack = r.stack ++ t) ∧
    (∃ t, (r.get args).1.stack = r.stack ++ t) ∧
    (r.dispatch req res).route = r := by
  refine ⟨⟨layersOf (flattenH args), ?_⟩, ⟨layersOf (flattenH args), ?_⟩, ?_⟩
  · simp [Route.all, registerGo_stack]
  · simp [Route.get, registerGo_stack]
  · by_cases hE : r.stack.isEmpty <;> simp [Route.dispatch, hE]

/-- Claim C9 (amended): on a route with a non-empty stack, `dispatch`
sets `req.route` to the dispatching route before any layer is invoked
(the assignment heads the event trace), and changes nothing else in the
request, nor the response.  On an empty stack the assignment is skipped
(`done()` returns first), refuting the claim for every call. -/
theorem dispatch_attaches_route {ρ σ ε : Type} (r : Route ε)
    (req : Request ρ ε) (res : σ) (hne : r.stack ≠ []) :
    (r.dispatch req res).req = { req with route := some r } ∧
    (r.dispatch req res).res = res ∧
    (r.dispatch req res).trace.head? = some Event.setRoute := by
  have hE : r.stack.isEmpty = false := by simpa using hne
  simp [Route.dispatch, hE]

/-- Witness for the amended C9 on a concrete one-layer route. -/
theorem dispatch_attaches_route_witness :
    ((Route.mk "/" [layerN]).dispatch req0 (0 : Nat)).req
        = { req0 with route := some (Route.mk "/" [layerN]) } ∧
    ((Route.mk "/" [layerN]).dispatch req0 (0 : Nat)).res = 0 ∧
    ((Route.mk "/" [layerN]).dispatch req0 (0 : Nat)).trace.head?
        = some Event.setRoute :=
  dispatch_attaches_route (Route.mk "/" [layerN]) req0 0 (by simp)

/-- Counterexample to C9 as stated: dispatching a route with an empty
stack returns through `done()` before the `req.route = this` assignment,
so no back-reference is attached to the request. -/
theorem dispatch_empty_no_route_attach_cex :
    ((Route.mk "/" ([] : List (Layer String))).dispatch req0 (0 : Nat)).req.route
      ≠ some (Route.mk "/" ([] : List (Layer String))) := by
  simp [Route.dispatch, req0]

/-- Claim C2 (amended): when the flattened argument list contains a
non-function value, the call throws synchronously at registration time —
`all()` a `TypeError`, `get()` a plain `Error`, each with a message
naming the first offending value's type — before any layer executes
(registration performs no layer invocation at all); the layers wrapped
from the function values preceding the offending one have already been
pushed, and they remain in the stack. -/
theorem register_throw_first_nonfn {ε : Type} (r : Route ε) (args : List (HVal ε))
    (v : HVal ε) (hv : firstNonFn (flattenH args) = some v) :
    (r.all args).2 = some (Thrown.typeError
      ("Route.all() requires a callback function but got a " ++ jsTag v)) ∧
    (r.get args).2 = some (Thrown.plainError
      ("Route.get() requires a callback function but got a " ++ jsTag v)) ∧
    (r.all args).1.stack = r.stack ++ layersOf (flattenH args) ∧
    (r.get args).1.stack = r.stack ++ layersOf (flattenH args) := by
  refine ⟨?_, ?_, ?_, ?_⟩
  · simpa [Route.all] using
      registerGo_throw Thrown.typeError
        "Route.all() requires a callback function but got a " (flattenH args) r.stack v hv
  · simpa [Route.get] using
      registerGo_throw Thrown.plainError
        "Route.get() requires a callback function but got a " (flattenH args) r.stack v hv
  · simpa [Route.all] using
      registerGo_stack Thrown.typeError
        "Route.all() requires a callback function but got a " (flattenH args) r.stack
  · simpa [Route.get] using
      registerGo_stack Thrown.plainError
        "Route.get() requires a callback function but got a " (flattenH args) r.stack

/-- Witness for the amended C2: `all(fn, 42)` on a fresh route throws a
`TypeError` naming `[object Number]`, with the layer wrapped from `fn`
already pushed. -/
theorem register_throw_first_nonfn_witness :
    ((Route.mk "/" ([] : List (Layer String))).all
        [HVal.fn layerN, HVal.nonFn "[object Number]"]).2
      = some (Thrown.typeError
          ("Route.all() requires a callback function but got a "
            ++ jsTag (HVal.nonFn "[object Number]" : HVal String))) ∧
    ((Route.mk "/" ([] : List (Layer String))).get
        [HVal.fn layerN, HVal.nonFn "[object Number]"]).2
      = some (Thrown.plainError
          ("Route.get() requires a callback function but got a "
            ++ jsTag (HVal.nonFn "[object Number]" : HVal String))) ∧
    ((Route.mk "/" ([] : List (Layer String))).all
        [HVal.fn layerN, HVal.nonFn "[object Number]"]).1.stack
      = [] ++ layersOf (flattenH [HVal.fn layerN, HVal.nonFn "[object Number]"]) ∧
    ((Route.mk "/" ([] : List (Layer String))).get
        [HVal.fn layerN, HVal.nonFn "[object Number]"]).1.stack
      = [] ++ layersOf (flattenH [HVal.fn layerN, HVal.nonFn "[object Number]"]) :=
  register_throw_first_nonfn (Route.mk "/" [])
    [HVal.fn layerN, HVal.nonFn "[object Number]"] (HVal.nonFn "[object Number]")
    (by simp [flattenH, firstNonFn])

/-- Counterexample to C2 as stated: `all(fn, 42)` on a route with an
empty stack throws, yet the layer wrapped from `fn` has been added to
the stack — so a throwing registration call can add layers; moreover
`get(42)` throws a plain `Error`, not a `TypeError`. -/
theorem register_partial_push_cex :
    ((Route.mk "/" ([] : List (Layer String))).all
        [HVal.fn layerN, HVal.nonFn "[object Number]"]).1.stack = [layerN] ∧
    ((Route.mk "/" ([] : List (Layer String))).all
        [HVal.fn layerN, HVal.nonFn "[object Number]"]).2
      = some (Thrown.typeError
          "Route.all() requires a callback function but got a [object Number]") ∧
    ((Route.mk "/" ([] : List (Layer String))).get
        [HVal.nonFn "[object Number]"]).2
      = some (Thrown.plainError
          "Route.get() requires a callback function but got a [object Number]") := by
  refine ⟨?_, ?_, ?_⟩ <;>
    simp [Route.all, Route.get, flattenH, registerGo, layersOf, jsTag]

/-- Claim C10: a registration call that does not throw returns the route
it was invoked on — all fields of the receiver, with the stack extended
by the wrapped handlers (`return this`) — and a call whose flattened
handler list is empty succeeds, leaves the stack unchanged, and returns
the route. -/
theorem register_returns_route {ε : Type} (r : Route ε) (args : List (HVal ε)) :
    (r.all args).1.path = r.path ∧ (r.get args).1.path = r.path ∧
    ((r.all args).2 = none →
      (r.all args).1 = { r with stack := r.stack ++ layersOf (flattenH args) }) ∧
    ((r.get args).2 = none →
      (r.get args).1 = { r with stack := r.stack ++ layersOf (flattenH args) }) ∧
    (flattenH args = [] → r.all args = (r, none) ∧ r.get args = (r, none)) := by
  have hall : (r.all args).1.stack = r.stack ++ layersOf (flattenH args) := by
    simpa [Route.all] using
      registerGo_stack Thrown.typeError
        "Route.all() requires a callback function but got a " (flattenH args) r.stack
  have hget : (r.get args).1.stack = r.stack ++ layersOf (flattenH args) := by
    simpa [Route.get] using
      registerGo_stack Thrown.plainError
        "Route.get() requires a callback function but got a " (flattenH args) r.stack
  refine ⟨rfl, rfl, fun _ => ?_, fun _ => ?_, fun hflat => ?_⟩
  · calc (r.all args).1 = ⟨(r.all args).1.path, (r.all args).1.stack⟩ := rfl
      _ = ⟨r.path, r.stack ++ layersOf (flattenH args)⟩ := by rw [hall]; rfl
  · calc (r.get args).1 = ⟨(r.get args).1.path, (r.get args).1.stack⟩ := rfl
      _ = ⟨r.path, r.stack ++ layersOf (flattenH args)⟩ := by rw [hget]; rfl
  · constructor
    · simp only [Route.all, hflat]
      rfl
    · simp only [Route.get, hflat]
      rfl

/-- Witness for C10: registering nothing on a concrete route succeeds
and returns the route with its stack unchanged. -/
theorem register_returns_route_witness :
    (Route.mk "/" [layerN]).all ([] : List (HVal String)) = (Route.mk "/" [layerN], none) ∧
    (Route.mk "/" [layerN]).get ([] : List (HVal String)) = (Route.mk "/" [layerN], none) :=
  (register_returns_route (Route.mk "/" [layerN]) []).2.2.2.2 (by simp [flattenH])

end Gophress
